import Mathlib

/-!
A shallow embedding of `src/parser.rs` (GGUF header decoder, written with nom
combinators).  Byte buffers are `List Nat` with every element a byte value
(< 256); a nom parser `&[u8] -> IResult<&[u8], T>` becomes a function
`List Nat → Except ParseErr (List Nat × α)` returning the remaining input and
the parsed value, or a failure.

Error modelling: the Rust code uses nom's default error type, which records an
`ErrorKind` at each failing site (`Tag` for the magic marker, `Eof` for
`le_uN`/`take`, `MapRes` for the three `map_res` sites).  `ParseErr` names each
failure site distinctly and keeps the datum the site's external error carries
(the unknown tag code, the invalid bool byte), matching the spec's error
vocabulary while preserving exactly the code's failure behaviour: each
constructor below is produced at exactly one kind of site of the Rust code.
-/

/-- Failure kinds of the decoder, one per failing site of `src/parser.rs`:
`unexpectedEof` for `le_u*`/`take` running out of input, `badMagic` for the
`tag("GGUF")` mismatch, `unknownTypeTag` for the `map_res(le_u32, try_from)`
site, `invalidUtf8` for the `map_res(take(len), from_utf8)` site, and
`invalidBool` for the `map_res(le_u8, ...)` bool site. -/
inductive ParseErr where
  | unexpectedEof : ParseErr
  | badMagic : ParseErr
  | unknownTypeTag : Nat → ParseErr
  | invalidUtf8 : ParseErr
  | invalidBool : Nat → ParseErr
deriving DecidableEq, Repr

/-- GGUF metadata value type (the 13 type tags), from `GGUfMetadataValueType`. -/
inductive GGUfMetadataValueType where
  | uint8 | int8 | uint16 | int16 | uint32 | int32 | float32
  | bool | string | array | uint64 | int64 | float64
deriving DecidableEq, Repr

/-- `TryFrom<u32> for GGUfMetadataValueType`: discriminants 0..12, any other
code is an error (the Rust error is the string `"invalid metadata type 0x…"`
formatted from the code; we keep the offending code itself as the error
payload). -/
def GGUfMetadataValueType.tryFrom (item : Nat) : Except Nat GGUfMetadataValueType :=
  match item with
  | 0 => .ok .uint8
  | 1 => .ok .int8
  | 2 => .ok .uint16
  | 3 => .ok .int16
  | 4 => .ok .uint32
  | 5 => .ok .int32
  | 6 => .ok .float32
  | 7 => .ok .bool
  | 8 => .ok .string
  | 9 => .ok .array
  | 10 => .ok .uint64
  | 11 => .ok .int64
  | 12 => .ok .float64
  | _ => .error item

/-- GGUF metadata value, from `GGUFMetadataValue`.  The float variants keep
the little-endian IEEE-754 bit pattern (Lean has no 32-bit float and float
equality is not decidable); the Rust value is the reinterpretation of exactly
these bits, so the decoding behaviour is identical. -/
inductive GGUFMetadataValue where
  | uint8 : Nat → GGUFMetadataValue
  | int8 : Int → GGUFMetadataValue
  | uint16 : Nat → GGUFMetadataValue
  | int16 : Int → GGUFMetadataValue
  | uint32 : Nat → GGUFMetadataValue
  | int32 : Int → GGUFMetadataValue
  | float32 : Nat → GGUFMetadataValue
  | uint64 : Nat → GGUFMetadataValue
  | int64 : Int → GGUFMetadataValue
  | float64 : Nat → GGUFMetadataValue
  | bool : Bool → GGUFMetadataValue
  | string : String → GGUFMetadataValue
  | array : List GGUFMetadataValue → GGUFMetadataValue
deriving Repr

/-- GGUF metadata entry, from `GGUFMetadata`. -/
structure GGUFMetadata where
  key : String
  value_type : GGUfMetadataValueType
  value : GGUFMetadataValue
deriving Repr

/-- GGUF header, from `GGUFHeader`. -/
structure GGUFHeader where
  version : Nat
  tensor_count : Nat
  metadata : List GGUFMetadata
deriving Repr

/-! ## nom primitives -/

/-- Little-endian value of a byte list (first byte least significant). -/
def leVal (bs : List Nat) : Nat :=
  bs.foldr (fun b acc => b + 256 * acc) 0

/-- nom `bytes::complete::take(n)`: consume exactly `n` bytes, or fail with
`Eof` when fewer remain. -/
def takeBytes (n : Nat) (i : List Nat) : Except ParseErr (List Nat × List Nat) :=
  if n ≤ i.length then .ok (i.drop n, i.take n) else .error .unexpectedEof

/-- nom `number::complete` little-endian unsigned readers: consume `w` bytes,
little-endian. -/
def le_uN (w : Nat) (i : List Nat) : Except ParseErr (List Nat × Nat) :=
  (takeBytes w i).map fun p => (p.1, leVal p.2)

def le_u8 (i : List Nat) : Except ParseErr (List Nat × Nat) := le_uN 1 i

def le_u16 (i : List Nat) : Except ParseErr (List Nat × Nat) := le_uN 2 i

def le_u32 (i : List Nat) : Except ParseErr (List Nat × Nat) := le_uN 4 i

def le_u64 (i : List Nat) : Except ParseErr (List Nat × Nat) := le_uN 8 i

/-- Two's-complement reinterpretation of a `w`-byte unsigned value. -/
def toSigned (w : Nat) (v : Nat) : Int :=
  if v < 2 ^ (8 * w - 1) then (v : Int) else (v : Int) - 2 ^ (8 * w)

/-- nom little-endian signed readers (`le_i8` …): unsigned read then
two's-complement reinterpretation. -/
def le_iN (w : Nat) (i : List Nat) : Except ParseErr (List Nat × Int) :=
  (le_uN w i).map fun p => (p.1, toSigned w p.2)

/-! ## UTF-8 validation (`std::str::from_utf8`)

Rust's validator accepts exactly well-formed UTF-8: ASCII, 2-byte sequences
`C2..DF 80..BF`, 3-byte sequences `E0 A0..BF`, `E1..EC 80..BF`, `ED 80..9F`,
`EE..EF 80..BF` (each followed by one continuation byte), and 4-byte sequences
`F0 90..BF`, `F1..F3 80..BF`, `F4 80..8F` (each followed by two continuation
bytes); overlong encodings, surrogates and codepoints above U+10FFFF are
rejected. -/

/-- Is `b` a UTF-8 continuation byte (`80..BF`)? -/
def isCont (b : Nat) : Bool := 0x80 ≤ b ∧ b < 0xC0

/-- Decode a byte list as UTF-8, or `none` when it is not valid UTF-8;
faithful to `std::str::from_utf8`'s acceptance set. -/
def utf8DecodeChars : List Nat → Option (List Char)
  | [] => some []
  | b :: rest =>
    if b < 0x80 then
      (utf8DecodeChars rest).map fun cs => Char.ofNat b :: cs
    else if b < 0xC2 then none
    else if b < 0xE0 then
      match rest with
      | b1 :: rest1 =>
        if isCont b1 then
          (utf8DecodeChars rest1).map fun cs =>
            Char.ofNat ((b - 0xC0) * 64 + (b1 - 0x80)) :: cs
        else none
      | _ => none
    else if b < 0xF0 then
      match rest with
      | b1 :: b2 :: rest2 =>
        if (if b = 0xE0 then 0xA0 ≤ b1 ∧ b1 < 0xC0
            else if b = 0xED then 0x80 ≤ b1 ∧ b1 < 0xA0
            else isCont b1) ∧ isCont b2 then
          (utf8DecodeChars rest2).map fun cs =>
            Char.ofNat ((b - 0xE0) * 4096 + (b1 - 0x80) * 64 + (b2 - 0x80)) :: cs
        else none
      | _ => none
    else if b < 0xF5 then
      match rest with
      | b1 :: b2 :: b3 :: rest3 =>
        if (if b = 0xF0 then 0x90 ≤ b1 ∧ b1 < 0xC0
            else if b = 0xF4 then 0x80 ≤ b1 ∧ b1 < 0x90
            else isCont b1) ∧ isCont b2 ∧ isCont b3 then
          (utf8DecodeChars rest3).map fun cs =>
            Char.ofNat ((b - 0xF0) * 262144 + (b1 - 0x80) * 4096 +
              (b2 - 0x80) * 64 + (b3 - 0x80)) :: cs
        else none
      | _ => none
    else none

/-! ## The parsers of `src/parser.rs` -/

/-- `gguf_string`: 8-byte little-endian length `n`, then `take(n)` bytes
validated as UTF-8 via `map_res(take(len), std::str::from_utf8)`. -/
def gguf_string (i : List Nat) : Except ParseErr (List Nat × String) := do
  let (i, len) ← le_u64 i
  let (i, data) ← takeBytes len i
  match utf8DecodeChars data with
  | some cs => pure (i, String.mk cs)
  | none => .error .invalidUtf8

/-- The 4 magic bytes `"GGUF"`. -/
def magicBytes : List Nat := [0x47, 0x47, 0x55, 0x46]

/-- `magic`: nom `tag("GGUF")` — succeed iff the input starts with the 4
magic bytes; a shorter input or a mismatch both fail (nom `ErrorKind::Tag`). -/
def magic (input : List Nat) : Except ParseErr (List Nat × List Nat) :=
  if input.take 4 = magicBytes then .ok (input.drop 4, magicBytes)
  else .error .badMagic

/-- `parse_gguf_metadata_value_type`: `map_res(le_u32, GGUfMetadataValueType::try_from)`. -/
def parse_gguf_metadata_value_type (i : List Nat) :
    Except ParseErr (List Nat × GGUfMetadataValueType) := do
  let (i, code) ← le_u32 i
  match GGUfMetadataValueType.tryFrom code with
  | .ok vt => pure (i, vt)
  | .error c => .error (.unknownTypeTag c)

/-- nom `multi::count(p, n)`: run `p` exactly `n` times, collecting the
results in order; the first failure aborts (nom's default error type ignores
the `ErrorKind::Count` wrapper, so the sub-parser's error propagates). -/
def countP (p : List Nat → Except ParseErr (List Nat × GGUFMetadataValue)) :
    Nat → List Nat → Except ParseErr (List Nat × List GGUFMetadataValue)
  | 0, i => .ok (i, [])
  | n + 1, i => do
    let (i, v) ← p i
    let (i, vs) ← countP p n i
    pure (i, v :: vs)

/-- `parse_gguf_metadata_value`, fuelled.  The Rust closure recurses without
bound through the Array arm; `fuel` only bounds that nesting depth (it is
untouched by every other arm), and the entry point passes `input length + 1`,
which no run can exhaust: each Array arm consumes 12 bytes of the input before
recursing, so the nesting depth reachable on an input of length `L` is at most
`L / 12 + 1`. -/
def parse_gguf_metadata_value_fueled :
    Nat → GGUfMetadataValueType → List Nat →
      Except ParseErr (List Nat × GGUFMetadataValue)
  | _, .uint8, i => (le_u8 i).map fun p => (p.1, .uint8 p.2)
  | _, .int8, i => (le_iN 1 i).map fun p => (p.1, .int8 p.2)
  | _, .uint16, i => (le_u16 i).map fun p => (p.1, .uint16 p.2)
  | _, .int16, i => (le_iN 2 i).map fun p => (p.1, .int16 p.2)
  | _, .uint32, i => (le_u32 i).map fun p => (p.1, .uint32 p.2)
  | _, .int32, i => (le_iN 4 i).map fun p => (p.1, .int32 p.2)
  | _, .float32, i => (le_uN 4 i).map fun p => (p.1, .float32 p.2)
  | _, .uint64, i => (le_u64 i).map fun p => (p.1, .uint64 p.2)
  | _, .int64, i => (le_iN 8 i).map fun p => (p.1, .int64 p.2)
  | _, .float64, i => (le_uN 8 i).map fun p => (p.1, .float64 p.2)
  | _, .bool, i => do
    let (i, b) ← le_u8 i
    if b = 0 then pure (i, .bool false)
    else if b = 1 then pure (i, .bool true)
    else .error (.invalidBool b)
  | _, .string, i => (gguf_string i).map fun p => (p.1, .string p.2)
  | 0, .array, _ => .error .unexpectedEof
  | fuel + 1, .array, i => do
    let (i, vt) ← parse_gguf_metadata_value_type i
    let (i, len) ← le_u64 i
    let (i, v) ← countP (fun j => parse_gguf_metadata_value_fueled fuel vt j) len i
    pure (i, .array v)

/-- `parse_gguf_metadata_value(value_type)` applied to an input: the entry
point of the fuelled recursion (see `parse_gguf_metadata_value_fueled`). -/
def parse_gguf_metadata_value (value_type : GGUfMetadataValueType) (i : List Nat) :
    Except ParseErr (List Nat × GGUFMetadataValue) :=
  parse_gguf_metadata_value_fueled (i.length + 1) value_type i

/-- `parse_gguf_metadata`: key, then type tag, then the value decoded by the
dispatcher selected by that tag. -/
def parse_gguf_metadata (i : List Nat) : Except ParseErr (List Nat × GGUFMetadata) := do
  let (i, key) ← gguf_string i
  let (i, value_type) ← parse_gguf_metadata_value_type i
  let (i, value) ← parse_gguf_metadata_value value_type i
  pure (i, { key := key, value_type := value_type, value := value })

/-- The `for _ in 0..metadata_count` loop of `parse_gguf_header`, as a
recursion producing the entries in file order. -/
def parse_gguf_metadata_list :
    Nat → List Nat → Except ParseErr (List Nat × List GGUFMetadata)
  | 0, i => .ok (i, [])
  | n + 1, i => do
    let (i, m) ← parse_gguf_metadata i
    let (i, ms) ← parse_gguf_metadata_list n i
    pure (i, m :: ms)

/-- `parse_gguf_header`: magic, version (u32), tensor_count (u64),
metadata_count (u64), then that many metadata entries. -/
def parse_gguf_header (i : List Nat) : Except ParseErr (List Nat × GGUFHeader) := do
  let (i, _) ← magic i
  let (i, version) ← le_u32 i
  let (i, tensor_count) ← le_u64 i
  let (i, metadata_count) ← le_u64 i
  let (i, metadata) ← parse_gguf_metadata_list metadata_count i
  pure (i, { version := version, tensor_count := tensor_count, metadata := metadata })

/-- `GGUFHeader::read`: the Rust body is
`let (_, header) = parse_gguf_header(data).expect("failed to parse"); Ok(header)`.
`.expect` panics the process on a parse failure; `none` models that panic,
`some` a normal return of the declared `Result<GGUFHeader, String>`. -/
def GGUFHeader.read (data : List Nat) : Option (Except String GGUFHeader) :=
  match parse_gguf_header data with
  | .ok (_, header) => some (.ok header)
  | .error _ => none

/-! ## Reference data for the claims -/

/-- The type-tag table as the spec states it (§4.1/§6): 0=u8, 1=i8, 2=u16,
3=i16, 4=u32, 5=i32, 6=f32, 7=bool, 8=string, 9=array, 10=u64, 11=i64,
12=f64; everything else is unknown.  Stated separately from
`GGUfMetadataValueType.tryFrom` so that the theorem for the tag-resolution
claim compares the code's table against the spec's. -/
def specTagTable (code : Nat) : Option GGUfMetadataValueType :=
  match code with
  | 0 => some .uint8
  | 1 => some .int8
  | 2 => some .uint16
  | 3 => some .int16
  | 4 => some .uint32
  | 5 => some .int32
  | 6 => some .float32
  | 7 => some .bool
  | 8 => some .string
  | 9 => some .array
  | 10 => some .uint64
  | 11 => some .int64
  | 12 => some .float64
  | _ => none

/-- The fixed byte widths the spec assigns (§4.2/§8): 1 for u8/i8/bool, 2 for
u16/i16, 4 for u32/i32/f32, 8 for u64/i64/f64; String and Array have no fixed
width. -/
def specScalarWidth : GGUfMetadataValueType → Option Nat
  | .uint8 => some 1
  | .int8 => some 1
  | .bool => some 1
  | .uint16 => some 2
  | .int16 => some 2
  | .uint32 => some 4
  | .int32 => some 4
  | .float32 => some 4
  | .uint64 => some 8
  | .int64 => some 8
  | .float64 => some 8
  | .string => none
  | .array => none

/-- Does the variant of `v` match the declared type `t`? (the MetadataEntry
invariant of §3). -/
def valueMatchesType : GGUfMetadataValueType → GGUFMetadataValue → Bool
  | .uint8, .uint8 _ => true
  | .int8, .int8 _ => true
  | .uint16, .uint16 _ => true
  | .int16, .int16 _ => true
  | .uint32, .uint32 _ => true
  | .int32, .int32 _ => true
  | .float32, .float32 _ => true
  | .uint64, .uint64 _ => true
  | .int64, .int64 _ => true
  | .float64, .float64 _ => true
  | .bool, .bool _ => true
  | .string, .string _ => true
  | .array, .array _ => true
  | _, _ => false

/-- ASCII bytes of a string (every character below 0x80). -/
def asciiBytes (s : String) : List Nat := s.toList.map Char.toNat

/-- A GGUF string field: 8-byte little-endian length, then the bytes (all our
concrete strings are shorter than 256 bytes, so one length byte suffices). -/
def ggufStrBytes (s : String) : List Nat :=
  [(asciiBytes s).length, 0, 0, 0, 0, 0, 0, 0] ++ asciiBytes s

/-- The literal end-to-end buffer of the spec's scenario (§8): magic,
version 2, tensor_count 291, and three metadata entries. -/
def literalBuf : List Nat :=
  magicBytes ++ [2, 0, 0, 0] ++ [0x23, 0x01, 0, 0, 0, 0, 0, 0] ++
    [3, 0, 0, 0, 0, 0, 0, 0] ++
  (ggufStrBytes ("general.architecture") ++ [8, 0, 0, 0] ++ ggufStrBytes ("llama")) ++
  (ggufStrBytes ("general.name") ++ [8, 0, 0, 0] ++ ggufStrBytes ("LLaMA v2")) ++
  (ggufStrBytes ("llama.context_length") ++ [4, 0, 0, 0] ++ [0, 0x10, 0, 0])

/-! ## Helper lemmas -/

theorem exceptMap_ok {α β : Type} {x : Except ParseErr α} {f : α → β} {b : β}
    (h : x.map f = .ok b) : ∃ a, x = .ok a ∧ f a = b := by
  cases x with
  | ok a =>
    refine ⟨a, rfl, ?_⟩
    simpa [Except.map] using h
  | error e => simp [Except.map] at h

theorem exceptBind_ok {α β : Type} {x : Except ParseErr α} {f : α → Except ParseErr β}
    {b : β} (h : (x >>= f) = .ok b) : ∃ a, x = .ok a ∧ f a = .ok b := by
  cases x with
  | ok a => exact ⟨a, rfl, h⟩
  | error e => simp [Bind.bind, Except.bind] at h

theorem takeBytes_append (a b : List Nat) : takeBytes a.length (a ++ b) = .ok (b, a) := by
  simp [takeBytes, List.take_left, List.drop_left]

theorem le_uN_append (w : Nat) (a b : List Nat) (h : a.length = w) :
    le_uN w (a ++ b) = .ok (b, leVal a) := by
  subst h
  simp [le_uN, takeBytes_append, Except.map]

theorem le_uN_one_cons (b : Nat) (rest : List Nat) :
    le_uN 1 (b :: rest) = .ok (rest, b) := by
  unfold le_uN takeBytes
  rw [if_pos (by simp)]
  simp [Except.map, leVal]

theorem parse_value_type_append (pre rest : List Nat) (h4 : pre.length = 4) :
    parse_gguf_metadata_value_type (pre ++ rest) =
      match GGUfMetadataValueType.tryFrom (leVal pre) with
      | .ok vt => .ok (rest, vt)
      | .error c => .error (.unknownTypeTag c) := by
  simp only [parse_gguf_metadata_value_type, le_u32, le_uN_append 4 pre rest h4,
    Bind.bind, Except.bind]
  cases GGUfMetadataValueType.tryFrom (leVal pre) <;> rfl

theorem tryFrom_eq_specTagTable (code : Nat) :
    GGUfMetadataValueType.tryFrom code =
      match specTagTable code with
      | some vt => .ok vt
      | none => .error code := by
  rcases code with _|_|_|_|_|_|_|_|_|_|_|_|_|n <;> rfl

/-! ## Claim theorems -/

/-- Claim C1 (status: code_bug).  The spec says the decoder never
panics/aborts on malformed input, but `GGUFHeader::read` unwraps the internal
parse result with `.expect("failed to parse")`, which panics the process on
every malformed input.  Evaluating the embedded code at a malformed input (the
empty buffer) shows the run ends in the modelled panic (`none`) rather than an
ordinary reported failure. -/
theorem read_aborts_on_malformed : GGUFHeader.read [] = none := rfl

set_option maxRecDepth 20000 in
/-- Claim C2: decoding the literal buffer (magic, version 2, tensor_count 291,
entries `general.architecture` = "llama", `general.name` = "LLaMA v2",
`llama.context_length` = 4096 : u32) succeeds and yields exactly that header,
with the three entries in exactly that order. -/
theorem literal_header_decode : parse_gguf_header literalBuf =
    .ok ([], { version := 2, tensor_count := 291, metadata := [
      { key := "general.architecture", value_type := .string,
        value := .string ("llama") },
      { key := "general.name", value_type := .string,
        value := .string ("LLaMA v2") },
      { key := "llama.context_length", value_type := .uint32,
        value := .uint32 4096 }] }) := rfl

/-- Claim C3: type tag resolution reads 4 little-endian bytes and maps the
resulting integer exactly per the spec's table (0=u8 … 12=f64), failing with
`UnknownTypeTag(code)` for every code outside 0..12; nothing beyond the 4
bytes is consumed (`rest` is returned untouched). -/
theorem type_tag_resolution (pre rest : List Nat) (h4 : pre.length = 4) :
    parse_gguf_metadata_value_type (pre ++ rest) =
      match specTagTable (leVal pre) with
      | some vt => .ok (rest, vt)
      | none => .error (.unknownTypeTag (leVal pre)) := by
  rw [parse_value_type_append pre rest h4, tryFrom_eq_specTagTable]
  cases specTagTable (leVal pre) <;> rfl

theorem type_tag_resolution_witness :
    parse_gguf_metadata_value_type ([13, 0, 0, 0] ++ [9, 9]) =
      .error (.unknownTypeTag 13) :=
  type_tag_resolution [13, 0, 0, 0] [9, 9] rfl

/-- Claim C4: decoding a boolean consumes exactly 1 byte; byte 0 yields
`Bool(false)`, byte 1 yields `Bool(true)`, and every other byte value fails
with `InvalidBool` carrying that byte. -/
theorem bool_decode (b : Nat) (rest : List Nat) (_hb : b < 256) :
    parse_gguf_metadata_value .bool (b :: rest) =
      if b = 0 then .ok (rest, .bool false)
      else if b = 1 then .ok (rest, .bool true)
      else .error (.invalidBool b) := by
  show parse_gguf_metadata_value_fueled _ .bool (b :: rest) = _
  simp only [parse_gguf_metadata_value_fueled, le_u8, le_uN, takeBytes,
    Bind.bind, Except.bind, Except.map]
  simp [leVal, Pure.pure, Except.pure]

theorem bool_decode_witness :
    parse_gguf_metadata_value .bool (2 :: [7]) = .error (.invalidBool 2) :=
  bool_decode 2 [7] (by decide)

/-- Claim C5: the string decoder reads an 8-byte little-endian length `n`; if
fewer than `n` bytes remain it fails with `UnexpectedEof` before any UTF-8
validation; if `n` bytes remain but are not valid UTF-8 it fails with
`InvalidUtf8`; on success it yields the decoded text and leaves the cursor
advanced by `8 + n` bytes (the remaining input is `rest.drop n`), with no null
terminator involved. -/
theorem string_decode (pre rest : List Nat) (h8 : pre.length = 8) :
    gguf_string (pre ++ rest) =
      if leVal pre ≤ rest.length then
        match utf8DecodeChars (rest.take (leVal pre)) with
        | some cs => .ok (rest.drop (leVal pre), String.mk cs)
        | none => .error .invalidUtf8
      else .error .unexpectedEof := by
  simp only [gguf_string, le_u64, le_uN_append 8 pre rest h8, Bind.bind, Except.bind,
    takeBytes]
  by_cases hle : leVal pre ≤ rest.length
  · cases hdec : utf8DecodeChars (rest.take (leVal pre)) <;>
      simp [if_pos hle, hdec, Pure.pure, Except.pure]
  · simp [if_neg hle]

theorem string_decode_witness :
    gguf_string ([1, 0, 0, 0, 0, 0, 0, 0] ++ [0x61, 0x62]) = .ok ([0x62], "a") :=
  string_decode [1, 0, 0, 0, 0, 0, 0, 0] [0x61, 0x62] rfl

/-- Claim C6: for every valid element type tag, decoding an array with
declared element count 0 succeeds with the empty sequence and consumes exactly
12 bytes — the 4 element-type-tag bytes and the 8 count bytes — reading no
element bytes (`rest` is returned untouched). -/
theorem empty_array_decode (et : GGUfMetadataValueType) (etBytes rest : List Nat)
    (h4 : etBytes.length = 4)
    (het : GGUfMetadataValueType.tryFrom (leVal etBytes) = .ok et) :
    parse_gguf_metadata_value .array (etBytes ++ List.replicate 8 0 ++ rest) =
      .ok (rest, .array []) := by
  unfold parse_gguf_metadata_value
  simp only [parse_gguf_metadata_value_fueled, List.append_assoc]
  rw [parse_value_type_append etBytes (List.replicate 8 0 ++ rest) h4, het]
  simp only [Bind.bind, Except.bind, le_u64,
    le_uN_append 8 (List.replicate 8 0) rest rfl]
  rfl

theorem empty_array_decode_witness :
    parse_gguf_metadata_value .array ([9, 0, 0, 0] ++ List.replicate 8 0 ++ [5]) =
      .ok ([5], .array []) :=
  empty_array_decode .array [9, 0, 0, 0] [5] rfl rfl

/-- Claim C7, counterexample: the claim quantifies over every buffer of the
type's fixed width (1 byte for bool) followed by a trailing byte, but a bool
whose byte is 2 fails with `InvalidBool` and consumes nothing, instead of
succeeding and consuming exactly 1 byte. -/
theorem fixed_width_fails_on_bool_byte_two :
    parse_gguf_metadata_value .bool ([2] ++ [0]) = .error (.invalidBool 2) := rfl

/-- Claim C7, amended: for every type tag with a fixed byte width (the ten
scalar types, per `specScalarWidth`), decoding a buffer that is exactly that
width followed by at least one trailing byte succeeds and consumes exactly
that width — provided a bool's byte is 0 or 1 (otherwise decoding fails with
`InvalidBool`, per the bool claim). -/
theorem fixed_width_consumption (vt : GGUfMetadataValueType) (w : Nat)
    (data extra : List Nat) (hw : specScalarWidth vt = some w)
    (hd : data.length = w) (_he : 1 ≤ extra.length)
    (hbool : vt = .bool → ∀ b ∈ data, b ≤ 1) :
    ∃ v, parse_gguf_metadata_value vt (data ++ extra) = .ok (extra, v) := by
  unfold parse_gguf_metadata_value
  cases vt <;> simp only [specScalarWidth, Option.some.injEq, reduceCtorEq] at hw <;>
    try (subst hw)
  case uint8 =>
    exact ⟨.uint8 (leVal data), by simp [parse_gguf_metadata_value_fueled, le_u8,
      le_uN_append 1 data extra hd, Except.map]⟩
  case int8 =>
    exact ⟨.int8 (toSigned 1 (leVal data)), by simp [parse_gguf_metadata_value_fueled,
      le_iN, le_uN_append 1 data extra hd, Except.map]⟩
  case uint16 =>
    exact ⟨.uint16 (leVal data), by simp [parse_gguf_metadata_value_fueled, le_u16,
      le_uN_append 2 data extra hd, Except.map]⟩
  case int16 =>
    exact ⟨.int16 (toSigned 2 (leVal data)), by simp [parse_gguf_metadata_value_fueled,
      le_iN, le_uN_append 2 data extra hd, Except.map]⟩
  case uint32 =>
    exact ⟨.uint32 (leVal data), by simp [parse_gguf_metadata_value_fueled, le_u32,
      le_uN_append 4 data extra hd, Except.map]⟩
  case int32 =>
    exact ⟨.int32 (toSigned 4 (leVal data)), by simp [parse_gguf_metadata_value_fueled,
      le_iN, le_uN_append 4 data extra hd, Except.map]⟩
  case float32 =>
    exact ⟨.float32 (leVal data), by simp [parse_gguf_metadata_value_fueled,
      le_uN_append 4 data extra hd, Except.map]⟩
  case uint64 =>
    exact ⟨.uint64 (leVal data), by simp [parse_gguf_metadata_value_fueled, le_u64,
      le_uN_append 8 data extra hd, Except.map]⟩
  case int64 =>
    exact ⟨.int64 (toSigned 8 (leVal data)), by simp [parse_gguf_metadata_value_fueled,
      le_iN, le_uN_append 8 data extra hd, Except.map]⟩
  case float64 =>
    exact ⟨.float64 (leVal data), by simp [parse_gguf_metadata_value_fueled,
      le_uN_append 8 data extra hd, Except.map]⟩
  case bool =>
    obtain ⟨b, rfl⟩ := List.length_eq_one.mp hd
    have hb : b ≤ 1 := hbool rfl b (by simp)
    interval_cases b
    · exact ⟨.bool false, by simp [parse_gguf_metadata_value_fueled, le_u8,
        le_uN_one_cons, Bind.bind, Except.bind, Pure.pure, Except.pure]⟩
    · exact ⟨.bool true, by simp [parse_gguf_metadata_value_fueled, le_u8,
        le_uN_one_cons, Bind.bind, Except.bind, Pure.pure, Except.pure]⟩

theorem fixed_width_consumption_witness :
    ∃ v, parse_gguf_metadata_value .uint32 ([1, 0, 0, 0] ++ [7]) = .ok ([7], v) :=
  fixed_width_consumption .uint32 4 [1, 0, 0, 0] [7] rfl rfl (by decide)
    (fun h => by cases h)

/-- Claim C8: every input whose first 4 bytes are not the ASCII marker "GGUF"
fails with `BadMagic`; the result is the constant `BadMagic` failure, so no
byte beyond the first 4 is consumed or interpreted and the bytes that follow
cannot change the outcome. -/
theorem bad_magic_halts (i : List Nat) (h : i.take 4 ≠ magicBytes) :
    parse_gguf_header i = .error .badMagic := by
  simp [parse_gguf_header, magic, h, Bind.bind, Except.bind]

theorem bad_magic_halts_witness :
    parse_gguf_header [0x47, 0x47, 0x55, 0x45, 99, 99] = .error .badMagic :=
  bad_magic_halts [0x47, 0x47, 0x55, 0x45, 99, 99] (by decide)

theorem fueled_value_matches (fuel : Nat) (vt : GGUfMetadataValueType)
    (i rest : List Nat) (v : GGUFMetadataValue)
    (h : parse_gguf_metadata_value_fueled fuel vt i = .ok (rest, v)) :
    valueMatchesType vt v = true := by
  cases vt
  case array =>
    cases fuel with
    | zero => simp [parse_gguf_metadata_value_fueled] at h
    | succ fuel =>
      simp only [parse_gguf_metadata_value_fueled] at h
      obtain ⟨p1, -, h⟩ := exceptBind_ok h
      obtain ⟨p2, -, h⟩ := exceptBind_ok h
      obtain ⟨p3, -, h⟩ := exceptBind_ok h
      simp only [Pure.pure, Except.pure, Except.ok.injEq, Prod.mk.injEq] at h
      obtain ⟨-, rfl⟩ := h
      rfl
  case bool =>
    simp only [parse_gguf_metadata_value_fueled] at h
    obtain ⟨p, -, hf⟩ := exceptBind_ok h
    split at hf
    · simp only [Pure.pure, Except.pure, Except.ok.injEq, Prod.mk.injEq] at hf
      obtain ⟨-, rfl⟩ := hf
      rfl
    · split at hf
      · simp only [Pure.pure, Except.pure, Except.ok.injEq, Prod.mk.injEq] at hf
        obtain ⟨-, rfl⟩ := hf
        rfl
      · simp at hf
  all_goals (
    simp only [parse_gguf_metadata_value_fueled] at h
    obtain ⟨p, -, hf⟩ := exceptMap_ok h
    simp only [Prod.mk.injEq] at hf
    obtain ⟨-, rfl⟩ := hf
    rfl)

/-- Claim C9: every metadata entry the entry decoder produces pairs a declared
type with a value of the matching variant — the dispatcher that builds the
value is selected by exactly the declared type, so no decoded entry can have a
mismatched pair. -/
theorem metadata_entry_invariant (i rest : List Nat) (m : GGUFMetadata)
    (h : parse_gguf_metadata i = .ok (rest, m)) :
    valueMatchesType m.value_type m.value = true := by
  simp only [parse_gguf_metadata] at h
  obtain ⟨p1, -, h⟩ := exceptBind_ok h
  obtain ⟨p2, -, h⟩ := exceptBind_ok h
  obtain ⟨p3, hval, h⟩ := exceptBind_ok h
  simp only [Pure.pure, Except.pure, Except.ok.injEq, Prod.mk.injEq] at h
  obtain ⟨-, rfl⟩ := h
  exact fueled_value_matches _ _ _ _ _ hval

theorem parse_entry_uint8_example :
    parse_gguf_metadata ([1, 0, 0, 0, 0, 0, 0, 0, 0x61] ++ [0, 0, 0, 0] ++ [5]) =
      .ok ([], { key := "a", value_type := .uint8, value := .uint8 5 }) := rfl

theorem metadata_entry_invariant_witness :
    valueMatchesType .uint8 (.uint8 5) = true :=
  metadata_entry_invariant
    ([1, 0, 0, 0, 0, 0, 0, 0, 0x61] ++ [0, 0, 0, 0] ++ [5]) []
    { key := "a", value_type := .uint8, value := .uint8 5 } parse_entry_uint8_example

/-- Claim C10: whenever `GGUFHeader::read` returns at all (does not panic,
i.e. produces `some` in the model), the returned `Result` is `Ok`: the
declared `Err` branch is unreachable, because the internal parse failure goes
through `.expect` (the modelled panic) and never flows into the returned
`Result`. -/
theorem read_err_unreachable (data : List Nat) (r : Except String GGUFHeader)
    (h : GGUFHeader.read data = some r) : ∃ hd, r = .ok hd := by
  unfold GGUFHeader.read at h
  cases hp : parse_gguf_header data with
  | ok p =>
    rw [hp] at h
    exact ⟨p.2, by injection h with h2; exact h2.symm⟩
  | error e =>
    rw [hp] at h
    cases h

theorem read_minimal_header :
    GGUFHeader.read (magicBytes ++ [1, 0, 0, 0] ++ List.replicate 8 0 ++ List.replicate 8 0) =
      some (.ok { version := 1, tensor_count := 0, metadata := [] }) := rfl

theorem read_err_unreachable_witness :
    ∃ hd, (Except.ok { version := 1, tensor_count := 0, metadata := [] } :
        Except String GGUFHeader) = .ok hd :=
  read_err_unreachable
    (magicBytes ++ [1, 0, 0, 0] ++ List.replicate 8 0 ++ List.replicate 8 0)
    (.ok { version := 1, tensor_count := 0, metadata := [] }) read_minimal_header
